import Mathlib

/-!
# Verification of the guest-kernel process layer

A shallow embedding of the process, TLS-allocation, wait/signal and
termination logic of the emulator's kernel layer (`Kernel::Process` and its
helpers), with theorems settling the specification claims about it.

Machine integers are modelled as `Nat` with explicit reduction modulo
`2 ^ 32` / `2 ^ 64` at the points where C++ unsigned arithmetic can wrap.
Fallible operations return a result code or an explicit host-outcome type.
-/

namespace YuzuKernel

/-- Guest page size.  `Memory::PAGE_SIZE` is declared outside the provided
sources; the spec's end-to-end scenario A fixes it at 0x1000. -/
def PAGE_SIZE : Nat := 0x1000

/-- Size of one TLS slot.  `Memory::TLS_ENTRY_SIZE` is declared outside the
provided sources; each TLS page is a `bitset<8>` of slots (source), and the
spec fixes the page size at 0x1000, so one slot spans 0x200 bytes. -/
def TLS_ENTRY_SIZE : Nat := 0x200

def U32_MOD : Nat := 2 ^ 32

def U64_MOD : Nat := 2 ^ 64

/-- u64 subtraction with wrap-around, as C++ unsigned subtraction does. -/
def wsub (a b : Nat) : Nat := (a + (U64_MOD - b % U64_MOD)) % U64_MOD

/-- Modelled from the spec: `Common::AlignUp` (not among the provided
sources) "rounds the requested stack size up to the page size". -/
def alignUp (value size : Nat) : Nat := ((value + size - 1) / size) * size

/-- Guest-visible kernel result codes used by this layer. -/
inductive ResultCode where
  | success
  | errInvalidState
  | errCapability
deriving DecidableEq

def ResultCode.isError : ResultCode → Bool
  | .success => false
  | _ => true

/-- Outcome of an operation as executed by the host: a normal result, a
fired `ASSERT_MSG` (deliberate fatal assertion in the source), or an
unchecked out-of-range container access (undefined behaviour, no check in
the source). -/
inductive HostResult (α : Type) where
  | ok : α → HostResult α
  | assertionFailure : HostResult α
  | outOfRangeAccess : HostResult α
deriving DecidableEq

def HostResult.getD {α : Type} : HostResult α → α → α
  | .ok a, _ => a
  | _, d => d

def HostResult.isOk {α : Type} : HostResult α → Bool
  | .ok _ => true
  | _ => false

/-! ## Entropy generation

`Process::Create` seeds a `std::mt19937` with
`Settings::values.rng_seed.value_or(0)` and fills the fixed-size
`random_entropy` array with draws of a `uniform_int_distribution<u64>`
over the full u64 range.  The engine below is the standard 32-bit Mersenne
twister those library components implement (the library itself is outside
the repository); a full-range u64 draw concatenates two consecutive 32-bit
engine outputs.  The spec fixes the entropy buffer as "fixed-size"; four
u64 words are generated. -/

def MT_UPPER_MASK : Nat := 0x80000000

def MT_LOWER_MASK : Nat := 0x7fffffff

/-- Word `i` of the mt19937 initial state for a given seed. -/
def mtInitWord (seed : Nat) : Nat → Nat
  | 0 => seed % U32_MOD
  | i + 1 =>
    let p := mtInitWord seed i
    (1812433253 * (p ^^^ (p >>> 30)) + (i + 1)) % U32_MOD

/-- Word `k` (for `k + 397 < 624`) of the state after the first twist. -/
def mtTwistWord (seed k : Nat) : Nat :=
  let y := (mtInitWord seed k &&& MT_UPPER_MASK) ||| (mtInitWord seed (k + 1) &&& MT_LOWER_MASK)
  mtInitWord seed (k + 397) ^^^ (y >>> 1) ^^^ (if y % 2 = 1 then 0x9908b0df else 0)

/-- mt19937 output tempering. -/
def mtTemper (y0 : Nat) : Nat :=
  let y1 := y0 ^^^ (y0 >>> 11)
  let y2 := (y1 ^^^ ((y1 <<< 7) &&& 0x9d2c5680)) % U32_MOD
  let y3 := (y2 ^^^ ((y2 <<< 15) &&& 0xefc60000)) % U32_MOD
  y3 ^^^ (y3 >>> 18)

/-- The `k`-th 32-bit output of a freshly seeded mt19937. -/
def mtOutput (seed k : Nat) : Nat := mtTemper (mtTwistWord seed k)

/-- The `k`-th full-range u64 draw: two consecutive 32-bit outputs. -/
def drawU64 (seed k : Nat) : Nat :=
  mtOutput seed (2 * k) * U32_MOD + mtOutput seed (2 * k + 1)

/-- The entropy buffer generated from a concrete engine seed. -/
def genRandomEntropy (seed : Nat) : List Nat :=
  [drawU64 seed 0, drawU64 seed 1, drawU64 seed 2, drawU64 seed 3]

/-- `Process::Create` entropy: the engine seed is
`Settings::values.rng_seed.value_or(0)` (source line), i.e. the configured
seed when present and literal 0 when absent. -/
def createEntropy (rng_seed : Option Nat) : List Nat :=
  genRandomEntropy (rng_seed.getD 0)

/-! ## Address space

`VMManager` itself is outside the provided sources.  Modelled from the
spec: it "maps memory regions identified by base address, size, backing
storage ... and a semantic state tag", exposes the code-region base
address and the end (and base) of the thread-local/IO region, and
`Reset` "resets the address space to the address-space type declared by
metadata". -/

inductive MemoryState where
  | Code
  | CodeData
  | Stack
  | ThreadLocal
deriving DecidableEq

structure Mapping where
  base : Nat
  size : Nat
  state : MemoryState
  backing : List Nat
deriving DecidableEq

structure VMManager where
  address_space_type : Nat
  code_region_base : Nat
  tls_io_region_base : Nat
  tls_io_region_end : Nat
  mappings : List Mapping
deriving DecidableEq

/-- Modelled from the spec: `VMManager::Reset` re-initializes the layout for
the given address-space type, dropping existing mappings. -/
def VMManager.reset (vm : VMManager) (t : Nat) : VMManager :=
  { vm with address_space_type := t, mappings := [] }

/-- Modelled from the spec: "mapped regions within one address space never
overlap" — the half-open ranges [base, base+size) and [m.base, m.base+m.size)
intersect. -/
def Mapping.intersects (m : Mapping) (base size : Nat) : Bool :=
  decide (base < m.base + m.size) && decide (m.base < base + size)

/-- Modelled from the spec: `VMManager::MapMemoryBlock` records a mapping of
`size` bytes of `block` starting at `offset`, at address `target`, with the
given semantic state; "mapping two regions whose ranges intersect is
rejected", so the result is `none` when the target range intersects an
existing mapping.  `Run` unwraps the result (fatal on error); the TLS
allocator discards it. -/
def VMManager.mapMemoryBlock (vm : VMManager) (target : Nat) (block : List Nat)
    (offset : Nat) (size : Nat) (state : MemoryState) : Option VMManager :=
  if vm.mappings.any (fun m => m.intersects target size) then none
  else
    some { vm with mappings :=
      vm.mappings ++ [⟨target, size, state, (block.drop offset).take size⟩] }

/-! ## Threads

`Thread` is declared outside the provided sources.  Modelled from the
spec: a thread has an owning process, priority, ideal-core affinity, a
register context, a status among kernel-internal run/wait/dormant states;
`Thread::Create` produces a dormant thread, `ResumeFromWait` makes it
runnable, `Stop` terminates it. -/

inductive ThreadStatus where
  | Dormant
  | Ready
  | WaitSynch
  | Dead
deriving DecidableEq

structure Thread where
  tid : Nat
  owner : Nat
  status : ThreadStatus
  entry_point : Nat
  priority : Nat
  processor_id : Nat
  stack_top : Nat
  reg1 : Nat
deriving DecidableEq

def Thread.create (tid : Nat) (entry_point : Nat) (priority : Nat)
    (processor_id : Nat) (stack_top : Nat) (owner : Nat) : Thread :=
  { tid := tid, owner := owner, status := .Dormant, entry_point := entry_point,
    priority := priority, processor_id := processor_id, stack_top := stack_top,
    reg1 := 0 }

def Thread.resumeFromWait (t : Thread) : Thread := { t with status := .Ready }

def Thread.stop (t : Thread) : Thread := { t with status := .Dead }

/-! ## Process -/

inductive ProcessStatus where
  | Created
  | Running
  | Exiting
  | Exited
deriving DecidableEq

/-- The spec's total order Created < Running < Exiting < Exited. -/
def statusOrd : ProcessStatus → Nat
  | .Created => 0
  | .Running => 1
  | .Exiting => 2
  | .Exited => 3

/-- Modelled from the spec: the capability set derived from metadata, of
which this layer uses only the declared handle-table size.  The capability
parser (`ProcessCapabilities`) is outside the provided sources; "capability-
initialization failures when program metadata declares malformed ...
capabilities" are modelled by a designated malformed descriptor value. -/
structure ProcessCapabilities where
  handle_table_size : Nat
deriving DecidableEq

def MALFORMED_CAPABILITY : Nat := 0xFFFFFFFF

def initializeForUserProcess (caps : List Nat) : Except ResultCode ProcessCapabilities :=
  if caps.any (fun c => c = MALFORMED_CAPABILITY) then .error .errCapability
  else .ok ⟨caps.length⟩

structure ProgramMetadata where
  title_id : Nat
  main_thread_core : Nat
  is_64bit : Bool
  address_space_type : Nat
  kernel_capabilities : List Nat
deriving DecidableEq

structure Process where
  process_id : Nat
  name : String
  program_id : Nat
  ideal_core : Nat
  is_64bit_process : Bool
  status : ProcessStatus
  is_signaled : Bool
  random_entropy : List Nat
  tls_slots : List Nat
  vm_manager : VMManager
  main_thread_stack_size : Nat
  code_memory_size : Nat
  handle_table_size : Nat
  next_handle : Nat
  waiting_threads : List Thread
deriving DecidableEq

/-- `Process::Create`: fresh process with status Created, program ID 0, a
kernel-assigned process ID, default capabilities and the seeded entropy
buffer.  Initial field values not set here (signaled flag, TLS pages,
handle table) come from the declaration outside the provided sources;
modelled from the spec: a fresh process is unsignaled, owns no TLS pages,
and its handle table hands out fresh non-zero handles. -/
def Process.create (pid : Nat) (rng_seed : Option Nat) (name : String)
    (vm0 : VMManager) : Process :=
  { process_id := pid, name := name, program_id := 0, ideal_core := 0,
    is_64bit_process := false, status := .Created, is_signaled := false,
    random_entropy := createEntropy rng_seed, tls_slots := [],
    vm_manager := vm0, main_thread_stack_size := 0, code_memory_size := 0,
    handle_table_size := 0, next_handle := 1, waiting_threads := [] }

/-- `Process::ClearSignalState`. -/
def Process.clearSignalState (p : Process) : ResultCode × Process :=
  if p.status = ProcessStatus.Exited then (.errInvalidState, p)
  else if p.is_signaled = false then (.errInvalidState, p)
  else (.success, { p with is_signaled := false })

/-- `Process::LoadFromMetadata`: applies program ID, ideal core, bitness,
resets the address space to the metadata's type, then initializes the
capability set (propagating its error) and sizes the handle table. -/
def Process.loadFromMetadata (p : Process) (md : ProgramMetadata) :
    ResultCode × Process :=
  let p1 := { p with
    program_id := md.title_id,
    ideal_core := md.main_thread_core,
    is_64bit_process := md.is_64bit,
    vm_manager := p.vm_manager.reset md.address_space_type }
  match initializeForUserProcess md.kernel_capabilities with
  | .error e => (e, p1)
  | .ok caps => (.success, { p1 with handle_table_size := caps.handle_table_size })

/-- Modelled from the spec: `WaitObject::WakeupAllWaitingThreads` wakes
every thread currently blocked on the object (broadcast).  Returns the
object with no remaining waiters together with the woken threads. -/
def Process.wakeupAllWaitingThreads (p : Process) : Process × List Thread :=
  ({ p with waiting_threads := [] }, p.waiting_threads.map Thread.resumeFromWait)

/-- `Process::ChangeStatus`: a no-op when the status is unchanged, else
sets the new status, marks the process signaled and wakes all waiters. -/
def Process.changeStatus (p : Process) (new_status : ProcessStatus) :
    Process × List Thread :=
  if p.status = new_status then (p, [])
  else
    ({ p with status := new_status, is_signaled := true }).wakeupAllWaitingThreads

/-- `SetupMainThread`: creates the main thread at the code-region base,
stores its own fresh handle in CPU register 1, and resumes it from the
default dormant state. -/
def setupMainThread (p : Process) (priority : Nat) (main_tid : Nat) :
    Process × Thread :=
  let entry_point := p.vm_manager.code_region_base
  let stack_top := p.vm_manager.tls_io_region_end
  let thread0 := Thread.create main_tid entry_point priority p.ideal_core stack_top p.process_id
  let thread_handle := p.next_handle
  let p1 := { p with next_handle := p.next_handle + 1 }
  (p1, Thread.resumeFromWait { thread0 with reg1 := thread_handle })

/-- `Process::Run`: aligns the stack size up to the page size, maps the
main-thread stack immediately below the TLS/IO region end with Stack
state — `.Unwrap()` on the mapping result, i.e. a fatal host assertion
when the mapping is rejected — then transitions to Running and sets up
the main thread.  The source stores the aligned size in the process
before mapping; as the failing branch aborts the host, the store is
folded into the success branch. -/
def Process.run (p : Process) (main_thread_priority : Nat) (stack_size : Nat)
    (main_tid : Nat) : HostResult (Process × Thread) :=
  let main_thread_stack_size := alignUp stack_size PAGE_SIZE
  let mapping_address := wsub p.vm_manager.tls_io_region_end main_thread_stack_size
  match p.vm_manager.mapMemoryBlock mapping_address
      (List.replicate main_thread_stack_size 0) 0 main_thread_stack_size
      MemoryState.Stack with
  | none => HostResult.assertionFailure
  | some vm1 =>
    let p1 := { p with main_thread_stack_size := main_thread_stack_size,
                       vm_manager := vm1 }
    let p2 := (p1.changeStatus ProcessStatus.Running).1
    HostResult.ok (setupMainThread p2 main_thread_priority main_tid)

/-- The sweep inside `Process::PrepareForTermination`: walks the Global
Scheduler's flat thread list; skips threads of other processes and the
thread currently running on the calling core; asserts (`ASSERT_MSG`) that
every remaining thread is in WaitSynch and stops it. -/
def stopProcessThreads (pid : Nat) (current : Option Nat) :
    List Thread → HostResult (List Thread)
  | [] => .ok []
  | t :: rest =>
    if t.owner ≠ pid then
      match stopProcessThreads pid current rest with
      | .ok ts => .ok (t :: ts)
      | e => e
    else if current = some t.tid then
      match stopProcessThreads pid current rest with
      | .ok ts => .ok (t :: ts)
      | e => e
    else if t.status = ThreadStatus.WaitSynch then
      match stopProcessThreads pid current rest with
      | .ok ts => .ok (t.stop :: ts)
      | e => e
    else .assertionFailure

/-- `Process::PrepareForTermination`: transition to Exiting, stop the
process's other threads (fatal assertion if one is not wait-synch),
transition to Exited. -/
def Process.prepareForTermination (p : Process) (global_thread_list : List Thread)
    (current : Option Nat) : HostResult (Process × List Thread) :=
  let p1 := (p.changeStatus .Exiting).1
  match stopProcessThreads p.process_id current global_thread_list with
  | .ok ts => .ok ((p1.changeStatus .Exited).1, ts)
  | .assertionFailure => .assertionFailure
  | .outOfRangeAccess => .outOfRangeAccess

/-! ## TLS slot allocation

A TLS page is a `std::bitset<8>` of slots in the source; a page is
modelled as the `Nat` whose binary digits are the bitset's bits. -/

/-- Number of slots per TLS page (`bitset<8>` in the source). -/
def TLS_SLOTS_PER_PAGE : Nat := 8

/-- `bitset<8>::all()`: all 8 slot bits set. -/
def pageAllSet (page : Nat) : Bool :=
  (List.range TLS_SLOTS_PER_PAGE).all (fun i => page.testBit i)

/-- `bitset::set(slot)`. -/
def setBit (page slot : Nat) : Nat := page ||| (1 <<< slot)

/-- `bitset::reset(slot)`. -/
def resetBit (page slot : Nat) : Nat :=
  if page.testBit slot then page ^^^ (1 <<< slot) else page

/-- The inner loop of `FindFreeThreadLocalSlot`: scan `remaining` slot
indices starting at `slot` for a clear bit. -/
def scanForClearSlot (page : Nat) (slot : Nat) (remaining : Nat) : Option Nat :=
  match remaining with
  | 0 => none
  | r + 1 => if page.testBit slot = false then some slot
             else scanForClearSlot page (slot + 1) r

def findFirstClearSlot (page : Nat) : Option Nat :=
  scanForClearSlot page 0 TLS_SLOTS_PER_PAGE

/-- The page loop of `FindFreeThreadLocalSlot`, carrying the index of the
page at the head of the remaining list. -/
def findFreeThreadLocalSlotAux : Nat → List Nat → Nat × Nat × Bool
  | _, [] => (0, 0, true)
  | page_index, page :: rest =>
    if pageAllSet page then findFreeThreadLocalSlotAux (page_index + 1) rest
    else
      match findFirstClearSlot page with
      | some slot => (page_index, slot, false)
      | none => findFreeThreadLocalSlotAux (page_index + 1) rest

/-- `FindFreeThreadLocalSlot`: returns (page, slot, alloc_needed). -/
def findFreeThreadLocalSlot (tls_slots : List Nat) : Nat × Nat × Bool :=
  findFreeThreadLocalSlotAux 0 tls_slots

/-- `tls_slots[page].set(slot)` on the page list. -/
def setSlotBit (tls : List Nat) (page slot : Nat) : List Nat :=
  tls.set page (setBit (tls.getD page 0) slot)

/-- `Process::MarkNextAvailableTLSSlotAsUsed`: first-fit scan; when every
page is full, appends a new all-clear page, backs it with a zero-filled
page-sized block and maps it at the next page index with ThreadLocal
state (the source discards the mapping result, so a rejected mapping
leaves the address space unchanged); sets the chosen slot's bit and
returns the slot's address. -/
def Process.markNextAvailableTLSSlotAsUsed (p : Process) : Process × Nat :=
  let found := findFreeThreadLocalSlot p.tls_slots
  let tls_begin := p.vm_manager.tls_io_region_base
  if found.2.2 then
    let tls_slots1 := p.tls_slots ++ [0]
    let available_page := tls_slots1.length - 1
    let tls_memory := List.replicate PAGE_SIZE 0
    let vm1 := (p.vm_manager.mapMemoryBlock (tls_begin + available_page * PAGE_SIZE)
      tls_memory 0 PAGE_SIZE .ThreadLocal).getD p.vm_manager
    ({ p with tls_slots := setSlotBit tls_slots1 available_page 0, vm_manager := vm1 },
     tls_begin + available_page * PAGE_SIZE + 0 * TLS_ENTRY_SIZE)
  else
    ({ p with tls_slots := setSlotBit p.tls_slots found.1 found.2.1 },
     tls_begin + found.1 * PAGE_SIZE + found.2.1 * TLS_ENTRY_SIZE)

/-- `Process::FreeTLSSlot`: recovers page and slot index from the address
and clears the slot's bit.  The page index is used to subscript the page
vector with no range check in the source (`tls_slots[tls_page]`): an
address outside every allocated page is an unchecked out-of-range
access. -/
def Process.freeTLSSlot (p : Process) (tls_address : Nat) : HostResult Process :=
  let tls_base := wsub tls_address p.vm_manager.tls_io_region_base
  let tls_page := tls_base / PAGE_SIZE
  let tls_slot := (tls_base % PAGE_SIZE) / TLS_ENTRY_SIZE
  if tls_page < p.tls_slots.length then
    .ok { p with tls_slots :=
      p.tls_slots.set tls_page (resetBit (p.tls_slots.getD tls_page 0) tls_slot) }
  else
    .outOfRangeAccess

/-! ## Concrete instances used by witnesses and counterexamples -/

/-- Names used by the concrete instances. -/
def nameA : String := "app"

def nameB : String := "other"

/-- A concrete address-space layout. -/
def vmExample : VMManager :=
  { address_space_type := 0, code_region_base := 0x200000,
    tls_io_region_base := 0x1000000, tls_io_region_end := 0x2000000,
    mappings := [] }

/-- A freshly created process over the example layout, no RNG seed. -/
def procExample : Process := Process.create 1 none nameA vmExample

/-- The example process after three TLS allocations (slots 0, 1, 2 of
page 0) and a free of slot 1: its page-0 bitmap is 0b101. -/
def procTls101 : Process :=
  let p1 := (procExample.markNextAvailableTLSSlotAsUsed).1
  let p2 := (p1.markNextAvailableTLSSlotAsUsed).1
  let p3 := (p2.markNextAvailableTLSSlotAsUsed).1
  (p3.freeTLSSlot (0x1000000 + TLS_ENTRY_SIZE)).getD p3

/-- `procTls101` after also freeing slot 2 (address base + 2 × slot size):
page-0 bitmap 0b001. -/
def procTls001 : Process :=
  (procTls101.freeTLSSlot (0x1000000 + 2 * TLS_ENTRY_SIZE)).getD procTls101

/-- The example process driven to Exited by `PrepareForTermination` alone
(no `Run`, so the stack range below the TLS/IO region end is still
unmapped). -/
def procExitedNoRun : Process :=
  ((procExample.prepareForTermination [] none).getD (procExample, [])).1

/-- The example process with slots 0 and 1 of page 0 in use. -/
def procTls011 : Process := (procTls001.markNextAvailableTLSSlotAsUsed).1

/-- A thread blocked on `procWaiting` (wait-synch state). -/
def threadW1 : Thread :=
  { Thread.create 10 0x200000 1 0 0x2000000 1 with status := ThreadStatus.WaitSynch }

/-- A second thread blocked on `procWaiting`. -/
def threadW2 : Thread :=
  { Thread.create 11 0x200000 1 1 0x2000000 1 with status := ThreadStatus.WaitSynch }

/-- The example process with two threads waiting on it. -/
def procWaiting : Process := { procExample with waiting_threads := [threadW1, threadW2] }

/-- Metadata whose declared kernel capabilities fail to parse. -/
def mdBad : ProgramMetadata :=
  { title_id := 0x0100000000010000, main_thread_core := 2, is_64bit := true,
    address_space_type := 3, kernel_capabilities := [MALFORMED_CAPABILITY] }

/-- The state `FreeTLSSlot` leaves behind when it clears slot `sl` of page
`pg`: only that slot's bit changes. -/
def freedTls (p : Process) (pg sl : Nat) : Process :=
  { p with tls_slots := p.tls_slots.set pg (resetBit (p.tls_slots.getD pg 0) sl) }

/-! ## Helper lemmas -/

theorem getD_set_self {l : List Nat} {i : Nat} (a d : Nat) (h : i < l.length) :
    (l.set i a).getD i d = a := by
  rw [List.getD_eq_getD_get?, List.get?_eq_getElem?, List.getElem?_set_eq_of_lt a h,
    Option.getD_some]

theorem getD_set_ne {l : List Nat} {i j : Nat} (a d : Nat) (h : i ≠ j) :
    (l.set i a).getD j d = l.getD j d := by
  rw [List.getD_eq_getD_get?, List.get?_eq_getElem?, List.getElem?_set_ne h,
    ← List.get?_eq_getElem?, ← List.getD_eq_getD_get?]

theorem set_append_len (l : List Nat) (a b : Nat) :
    (l ++ [a]).set l.length b = l ++ [b] := by
  induction l with
  | nil => rfl
  | cons x xs ih => simp [ih]

theorem getD_append_len (l : List Nat) (a d : Nat) :
    (l ++ [a]).getD l.length d = a := by
  rw [List.getD_append_right l [a] d l.length (Nat.le_refl _), Nat.sub_self]
  rfl

theorem testBit_setBit_self (x s : Nat) : (setBit x s).testBit s = true := by
  simp [setBit, Nat.testBit_or, Nat.one_shiftLeft, Nat.testBit_two_pow_self]

theorem testBit_setBit_ne (x : Nat) {s u : Nat} (h : s ≠ u) :
    (setBit x s).testBit u = x.testBit u := by
  simp [setBit, Nat.testBit_or, Nat.one_shiftLeft, Nat.testBit_two_pow_of_ne h]

theorem testBit_resetBit_self (x s : Nat) : (resetBit x s).testBit s = false := by
  unfold resetBit
  by_cases h : x.testBit s
  · simp [h, Nat.testBit_xor, Nat.one_shiftLeft, Nat.testBit_two_pow_self]
  · simp [h]

theorem testBit_resetBit_ne (x : Nat) {s u : Nat} (h : s ≠ u) :
    (resetBit x s).testBit u = x.testBit u := by
  unfold resetBit
  by_cases hx : x.testBit s
  · simp [hx, Nat.testBit_xor, Nat.one_shiftLeft, Nat.testBit_two_pow_of_ne h]
  · simp [hx]

theorem wsub_eq_sub {a b : Nat} (hb : b ≤ a) (ha : a < U64_MOD) :
    wsub a b = a - b := by
  unfold wsub
  rw [Nat.mod_eq_of_lt (Nat.lt_of_le_of_lt hb ha)]
  have h1 : a + (U64_MOD - b) = (a - b) + U64_MOD := by omega
  rw [h1, Nat.add_mod_right, Nat.mod_eq_of_lt (by omega)]

theorem alignUp_multiple (v s : Nat) : alignUp v s % s = 0 := by
  unfold alignUp
  exact Nat.mul_mod_left _ _

theorem alignUp_ge (v : Nat) {s : Nat} (hs : 0 < s) : v ≤ alignUp v s := by
  unfold alignUp
  have hd := Nat.div_add_mod (v + s - 1) s
  have hm : (v + s - 1) % s < s := Nat.mod_lt _ hs
  rw [Nat.mul_comm]
  generalize hq : s * ((v + s - 1) / s) = m at hd ⊢
  generalize hr : (v + s - 1) % s = r at hd hm
  omega

theorem scanForClearSlot_none {page s r : Nat}
    (h : scanForClearSlot page s r = none) :
    ∀ u, s ≤ u → u < s + r → page.testBit u = true := by
  induction r generalizing s with
  | zero => intro u h1 h2; omega
  | succ r ih =>
    intro u h1 h2
    unfold scanForClearSlot at h
    by_cases hb : page.testBit s = false
    · rw [if_pos hb] at h; exact absurd h (by simp)
    · rw [if_neg hb] at h
      rcases Nat.eq_or_lt_of_le h1 with heq | hlt
      · subst heq; exact eq_true_of_ne_false hb
      · exact ih h u hlt (by omega)

theorem scanForClearSlot_some {page s r t : Nat}
    (h : scanForClearSlot page s r = some t) :
    s ≤ t ∧ t < s + r ∧ page.testBit t = false ∧
      ∀ u, s ≤ u → u < t → page.testBit u = true := by
  induction r generalizing s with
  | zero => exact absurd h (by simp [scanForClearSlot])
  | succ r ih =>
    unfold scanForClearSlot at h
    by_cases hb : page.testBit s = false
    · rw [if_pos hb] at h
      obtain rfl : s = t := by simpa using h
      exact ⟨Nat.le_refl _, by omega, hb, fun u h1 h2 => by omega⟩
    · rw [if_neg hb] at h
      obtain ⟨ih1, ih2, ih3, ih4⟩ := ih h
      refine ⟨by omega, by omega, ih3, ?_⟩
      intro u h1 h2
      rcases Nat.eq_or_lt_of_le h1 with heq | hlt
      · subst heq; exact eq_true_of_ne_false hb
      · exact ih4 u hlt h2

theorem scanForClearSlot_exact {page s r t : Nat} (h1 : s ≤ t) (h2 : t < s + r)
    (hbit : page.testBit t = false)
    (hu : ∀ u, s ≤ u → u < t → page.testBit u = true) :
    scanForClearSlot page s r = some t := by
  induction r generalizing s with
  | zero => omega
  | succ r ih =>
    unfold scanForClearSlot
    rcases Nat.eq_or_lt_of_le h1 with heq | hlt
    · subst heq; rw [if_pos hbit]
    · rw [if_neg (by simp [hu s (Nat.le_refl _) hlt])]
      exact ih hlt (by omega) (fun u hu1 hu2 => hu u (Nat.le_of_lt hu1) hu2)

theorem pageAllSet_iff {page : Nat} :
    pageAllSet page = true ↔ ∀ i < TLS_SLOTS_PER_PAGE, page.testBit i = true := by
  unfold pageAllSet
  simp [List.all_eq_true]

theorem pageAllSet_false_of_clear {page i : Nat} (hi : i < TLS_SLOTS_PER_PAGE)
    (hbit : page.testBit i = false) : pageAllSet page = false := by
  rcases Bool.eq_false_or_eq_true (pageAllSet page) with h | h
  · exact absurd (pageAllSet_iff.mp h i hi) (by simp [hbit])
  · exact h

theorem findFreeAux_all_full {l : List Nat} (i : Nat)
    (h : ∀ q ∈ l, pageAllSet q = true) :
    findFreeThreadLocalSlotAux i l = (0, 0, true) := by
  induction l generalizing i with
  | nil => rfl
  | cons p rest ih =>
    unfold findFreeThreadLocalSlotAux
    rw [if_pos (h p (List.mem_cons_self p rest))]
    exact ih (i + 1) (fun q hq => h q (List.mem_cons_of_mem _ hq))

theorem findFreeAux_found {l : List Nat} (i : Nat)
    (h : ¬ ∀ q ∈ l, pageAllSet q = true) :
    ∃ j s, findFreeThreadLocalSlotAux i l = (i + j, s, false) ∧
      j < l.length ∧ pageAllSet (l.getD j 0) = false ∧
      (∀ k < j, pageAllSet (l.getD k 0) = true) ∧
      s < TLS_SLOTS_PER_PAGE ∧ (l.getD j 0).testBit s = false ∧
      (∀ u < s, (l.getD j 0).testBit u = true) := by
  induction l generalizing i with
  | nil => exact absurd (by intro q hq; exact absurd hq (List.not_mem_nil q)) h
  | cons p rest ih =>
    by_cases hp : pageAllSet p = true
    · have hrest : ¬ ∀ q ∈ rest, pageAllSet q = true := by
        intro hall; exact h (fun q hq => by
          rcases List.mem_cons.mp hq with rfl | hq2
          · exact hp
          · exact hall q hq2)
      obtain ⟨j, s, heq, hj, hfull, hk, hs, hbit, hu⟩ := ih (i + 1) hrest
      refine ⟨j + 1, s, ?_, by simpa using Nat.succ_lt_succ hj, ?_, ?_, hs, ?_, ?_⟩
      · have harith : i + 1 + j = i + (j + 1) := by omega
        unfold findFreeThreadLocalSlotAux
        rw [if_pos hp, heq, harith]
      · simpa using hfull
      · intro k hk2
        cases k with
        | zero => exact hp
        | succ k2 => simpa using hk k2 (by omega)
      · simpa using hbit
      · intro u hu2; simpa using hu u hu2
    · have hp2 : pageAllSet p = false := by simpa using hp
      have hex : ∃ i0, i0 < TLS_SLOTS_PER_PAGE ∧ p.testBit i0 = false := by
        by_contra hno
        push_neg at hno
        exact hp (pageAllSet_iff.mpr (fun i0 hi0 => by simpa using hno i0 hi0))
      obtain ⟨i0, hi0, hbit0⟩ := hex
      rcases hscan : findFirstClearSlot p with _ | s
      · have := scanForClearSlot_none hscan i0 (Nat.zero_le _) (by omega)
        rw [this] at hbit0; exact absurd hbit0 (by simp)
      · obtain ⟨_, hs2, hs3, hs4⟩ := scanForClearSlot_some hscan
        refine ⟨0, s, ?_, by simp, by simpa using hp2, by omega, by omega, by simpa using hs3, ?_⟩
        · unfold findFreeThreadLocalSlotAux
          rw [if_neg (by simp [hp2]), hscan]
          rfl
        · intro u hu2; simpa using hs4 u (Nat.zero_le _) hu2

theorem findFreeAux_exact {l : List Nat} (i : Nat) {pg sl : Nat}
    (hpg : pg < l.length)
    (hk : ∀ k < pg, pageAllSet (l.getD k 0) = true)
    (hfull : pageAllSet (l.getD pg 0) = false)
    (hsl : sl < TLS_SLOTS_PER_PAGE)
    (hbit : (l.getD pg 0).testBit sl = false)
    (hu : ∀ u < sl, (l.getD pg 0).testBit u = true) :
    findFreeThreadLocalSlotAux i l = (i + pg, sl, false) := by
  induction l generalizing i pg with
  | nil => simp at hpg
  | cons p rest ih =>
    cases pg with
    | zero =>
      have hp2 : pageAllSet p = false := by simpa using hfull
      unfold findFreeThreadLocalSlotAux
      rw [if_neg (by simp [hp2])]
      have hscan : findFirstClearSlot p = some sl := by
        unfold findFirstClearSlot
        exact scanForClearSlot_exact (Nat.zero_le _) (by omega) (by simpa using hbit)
          (fun u hu1 hu2 => by simpa using hu u hu2)
      rw [hscan]
      rfl
    | succ pg2 =>
      have hp : pageAllSet p = true := by simpa using hk 0 (Nat.zero_lt_succ _)
      unfold findFreeThreadLocalSlotAux
      rw [if_pos hp]
      have harith : i + 1 + pg2 = i + (pg2 + 1) := by omega
      have := ih (i + 1) (by simpa using Nat.lt_of_succ_lt_succ hpg)
        (fun k hk2 => by simpa using hk (k + 1) (by omega))
        (by simpa using hfull) (by simpa using hbit)
        (fun u hu2 => by simpa using hu u hu2)
      rw [this, harith]

theorem changeStatus_of_ne {p : Process} {ns : ProcessStatus} (h : p.status ≠ ns) :
    p.changeStatus ns =
      ({ p with status := ns, is_signaled := true, waiting_threads := [] },
        p.waiting_threads.map Thread.resumeFromWait) := by
  unfold Process.changeStatus Process.wakeupAllWaitingThreads
  rw [if_neg h]

theorem changeStatus_of_eq {p : Process} {ns : ProcessStatus} (h : p.status = ns) :
    p.changeStatus ns = (p, []) := by
  unfold Process.changeStatus
  rw [if_pos h]

theorem changeStatus_fst_status (p : Process) (ns : ProcessStatus) :
    (p.changeStatus ns).1.status = ns := by
  by_cases h : p.status = ns
  · rw [changeStatus_of_eq h]; exact h
  · rw [changeStatus_of_ne h]

theorem changeStatus_fst_vm (p : Process) (ns : ProcessStatus) :
    (p.changeStatus ns).1.vm_manager = p.vm_manager := by
  by_cases h : p.status = ns
  · rw [changeStatus_of_eq h]
  · rw [changeStatus_of_ne h]

theorem changeStatus_fst_stack_size (p : Process) (ns : ProcessStatus) :
    (p.changeStatus ns).1.main_thread_stack_size = p.main_thread_stack_size := by
  by_cases h : p.status = ns
  · rw [changeStatus_of_eq h]
  · rw [changeStatus_of_ne h]

theorem changeStatus_fst_next_handle (p : Process) (ns : ProcessStatus) :
    (p.changeStatus ns).1.next_handle = p.next_handle := by
  by_cases h : p.status = ns
  · rw [changeStatus_of_eq h]
  · rw [changeStatus_of_ne h]

theorem changeStatus_fst_ideal_core (p : Process) (ns : ProcessStatus) :
    (p.changeStatus ns).1.ideal_core = p.ideal_core := by
  by_cases h : p.status = ns
  · rw [changeStatus_of_eq h]
  · rw [changeStatus_of_ne h]

theorem stopProcessThreads_ok (pid : Nat) (cur : Option Nat) (l : List Thread)
    (h : ∀ t ∈ l, t.owner = pid → cur ≠ some t.tid → t.status = ThreadStatus.WaitSynch) :
    stopProcessThreads pid cur l = HostResult.ok
      (l.map (fun t => if t.owner = pid ∧ cur ≠ some t.tid then t.stop else t)) := by
  induction l with
  | nil => rfl
  | cons t rest ih =>
    have hrest := ih (fun u hu => h u (List.mem_cons_of_mem _ hu))
    unfold stopProcessThreads
    by_cases h1 : t.owner = pid
    · by_cases h2 : cur = some t.tid
      · rw [if_neg (fun hc => hc h1), if_pos h2, hrest]
        simp [h1, h2]
      · have h3 := h t (List.mem_cons_self t rest) h1 h2
        rw [if_neg (fun hc => hc h1), if_neg h2, if_pos h3, hrest]
        simp [h1, h2]
    · rw [if_pos h1, hrest]
      simp [h1]

theorem stopProcessThreads_fail (pid : Nat) (cur : Option Nat) (l : List Thread)
    (h : ∃ t ∈ l, t.owner = pid ∧ cur ≠ some t.tid ∧ t.status ≠ ThreadStatus.WaitSynch) :
    stopProcessThreads pid cur l = HostResult.assertionFailure := by
  induction l with
  | nil =>
    obtain ⟨t, ht, _⟩ := h
    exact absurd ht (List.not_mem_nil t)
  | cons t rest ih =>
    obtain ⟨u, hu, hu1, hu2, hu3⟩ := h
    unfold stopProcessThreads
    rcases List.mem_cons.mp hu with rfl | hurest
    · rw [if_neg (fun hc => hc hu1), if_neg hu2, if_neg hu3]
    · have hr := ih ⟨u, hurest, hu1, hu2, hu3⟩
      by_cases h1 : t.owner = pid
      · by_cases h2 : cur = some t.tid
        · rw [if_neg (fun hc => hc h1), if_pos h2, hr]
        · by_cases h3 : t.status = ThreadStatus.WaitSynch
          · rw [if_neg (fun hc => hc h1), if_neg h2, if_pos h3, hr]
          · rw [if_neg (fun hc => hc h1), if_neg h2, if_neg h3]
      · rw [if_pos h1, hr]

/-! ## Claims -/

/-- C2: `ClearSignalState` returns the invalid-state error exactly when the
process's status is Exited or it is not currently signaled, leaving the
process unchanged in that case; otherwise it clears `is_signaled` and
returns success.  A freshly created process fails the call, and an Exited
process fails it regardless of the signaled flag. -/
theorem C2_clear_signal_state (p : Process) :
    ((p.clearSignalState.1 = ResultCode.errInvalidState) ↔
      (p.status = ProcessStatus.Exited ∨ p.is_signaled = false)) ∧
    ((p.status = ProcessStatus.Exited ∨ p.is_signaled = false) →
      p.clearSignalState.2 = p) ∧
    (p.status ≠ ProcessStatus.Exited → p.is_signaled = true →
      p.clearSignalState = (ResultCode.success, { p with is_signaled := false })) ∧
    (∀ pid seed nm vm0, (Process.create pid seed nm vm0).clearSignalState.1 =
      ResultCode.errInvalidState) := by
  unfold Process.clearSignalState
  refine ⟨?_, ?_, ?_, ?_⟩
  · by_cases h1 : p.status = ProcessStatus.Exited
    · simp [h1]
    · by_cases h2 : p.is_signaled = false
      · simp [h1, h2]
      · simp [h1, h2]
  · intro hor
    by_cases h1 : p.status = ProcessStatus.Exited
    · simp [h1]
    · by_cases h2 : p.is_signaled = false
      · simp [h1, h2]
      · rcases hor with h | h
        · exact absurd h h1
        · exact absurd h h2
  · intro h1 h2
    simp [h1, h2]
  · intro pid seed nm vm0
    rfl

/-- C4: an actual status change (new status different from the current
one) sets `is_signaled` and broadcast-wakes every waiting thread: all N
waiters are woken runnable and none is left on the wait list. -/
theorem C4_change_status_broadcast (p : Process) (ns : ProcessStatus)
    (h : ns ≠ p.status) :
    ((p.changeStatus ns).1.status = ns) ∧
    ((p.changeStatus ns).1.is_signaled = true) ∧
    ((p.changeStatus ns).1.waiting_threads = []) ∧
    ((p.changeStatus ns).2 = p.waiting_threads.map Thread.resumeFromWait) ∧
    ((p.changeStatus ns).2.length = p.waiting_threads.length) ∧
    (∀ t ∈ (p.changeStatus ns).2, t.status = ThreadStatus.Ready) := by
  rw [changeStatus_of_ne (fun he => h he.symm)]
  refine ⟨rfl, rfl, rfl, rfl, by simp, ?_⟩
  intro t ht
  obtain ⟨u, hu, rfl⟩ := List.mem_map.mp ht
  rfl

/-- C4 witness: a transition to Running on a process with two waiters. -/
theorem C4_change_status_broadcast_witness :
    ((procWaiting.changeStatus ProcessStatus.Running).1.status = ProcessStatus.Running) ∧
    ((procWaiting.changeStatus ProcessStatus.Running).1.is_signaled = true) ∧
    ((procWaiting.changeStatus ProcessStatus.Running).1.waiting_threads = []) ∧
    ((procWaiting.changeStatus ProcessStatus.Running).2 =
      procWaiting.waiting_threads.map Thread.resumeFromWait) ∧
    ((procWaiting.changeStatus ProcessStatus.Running).2.length =
      procWaiting.waiting_threads.length) ∧
    (∀ t ∈ (procWaiting.changeStatus ProcessStatus.Running).2,
      t.status = ThreadStatus.Ready) :=
  C4_change_status_broadcast procWaiting ProcessStatus.Running (by decide)

/-- C7 counterexample: with no configured seed, `Process::Create` seeds the
engine with literal 0 (`rng_seed.value_or(0)`), so the unseeded entropy
buffer equals the buffer for configured seed 0 — a fixed deterministic
value, not one drawn from a true random source. -/
theorem C7_unseeded_entropy_counterexample :
    createEntropy none = createEntropy (some 0) ∧
    (Process.create 1 none nameA vmExample).random_entropy =
      (Process.create 2 (some 0) nameB vmExample).random_entropy :=
  ⟨rfl, rfl⟩

/-- C7 amended: the entropy buffer is a deterministic function of the
configured seed — identical buffers whenever the effective engine seeds
agree — and an absent seed is mapped to engine seed 0 rather than to a
true random source. -/
theorem C7_entropy_deterministic (pid1 pid2 : Nat) (s1 s2 : Option Nat)
    (nm1 nm2 : String) (vm1 vm2 : VMManager) (h : s1.getD 0 = s2.getD 0) :
    ((Process.create pid1 s1 nm1 vm1).random_entropy =
      (Process.create pid2 s2 nm2 vm2).random_entropy) ∧
    ((Process.create pid1 s1 nm1 vm1).random_entropy = genRandomEntropy (s1.getD 0)) := by
  constructor
  · show createEntropy s1 = createEntropy s2
    unfold createEntropy
    rw [h]
  · rfl

/-- C7 witness: an unseeded creation and a seed-0 creation. -/
theorem C7_entropy_deterministic_witness :
    ((Process.create 3 none nameA vmExample).random_entropy =
      (Process.create 4 (some 0) nameB vmExample).random_entropy) ∧
    ((Process.create 3 none nameA vmExample).random_entropy =
      genRandomEntropy ((none : Option Nat).getD 0)) :=
  C7_entropy_deterministic 3 4 none (some 0) nameA nameB vmExample vmExample rfl

/-- C9 counterexample: freeing an address outside every allocated TLS page
is the unchecked out-of-range vector access, not a fired assertion. -/
theorem C9_free_outside_counterexample :
    procExample.freeTLSSlot 0x1000000 = HostResult.outOfRangeAccess ∧
    (HostResult.outOfRangeAccess : HostResult Process) ≠ HostResult.assertionFailure :=
  ⟨rfl, by decide⟩

/-- C9 amended: `FreeTLSSlot` on an address whose page index is not below
the number of allocated pages performs an unchecked out-of-range access of
the page vector (undefined behaviour in the host): there is no assertion
and no recoverable error on this path. -/
theorem C9_free_outside_is_oob (p : Process) (a : Nat)
    (h : p.tls_slots.length ≤ wsub a p.vm_manager.tls_io_region_base / PAGE_SIZE) :
    p.freeTLSSlot a = HostResult.outOfRangeAccess := by
  unfold Process.freeTLSSlot
  rw [if_neg (by omega)]

/-- C9 witness: the example process owns no TLS page, so freeing the TLS
region base address is out of range. -/
theorem C9_free_outside_is_oob_witness :
    procExample.freeTLSSlot 0x1000001 = HostResult.outOfRangeAccess :=
  C9_free_outside_is_oob procExample 0x1000001 (by decide)

/-- C10: when `LoadFromMetadata` fails on the capability check, the
mutations made before it — program ID, ideal core, 64-bit flag and the
address-space reset to the metadata's type — remain in effect: no
rollback happens. -/
theorem C10_load_from_metadata_not_atomic (p : Process) (md : ProgramMetadata)
    (_herr : (p.loadFromMetadata md).1.isError = true) :
    ((p.loadFromMetadata md).2.program_id = md.title_id) ∧
    ((p.loadFromMetadata md).2.ideal_core = md.main_thread_core) ∧
    ((p.loadFromMetadata md).2.is_64bit_process = md.is_64bit) ∧
    ((p.loadFromMetadata md).2.vm_manager.address_space_type = md.address_space_type) ∧
    ((p.loadFromMetadata md).2.vm_manager.mappings = []) := by
  unfold Process.loadFromMetadata
  cases hinit : initializeForUserProcess md.kernel_capabilities with
  | error e => simp [VMManager.reset]
  | ok caps => simp [VMManager.reset]

/-- C10 witness: loading metadata with a malformed capability descriptor
fails, and the partial mutations are visible. -/
theorem C10_load_from_metadata_not_atomic_witness :
    ((procExample.loadFromMetadata mdBad).2.program_id = mdBad.title_id) ∧
    ((procExample.loadFromMetadata mdBad).2.ideal_core = mdBad.main_thread_core) ∧
    ((procExample.loadFromMetadata mdBad).2.is_64bit_process = mdBad.is_64bit) ∧
    ((procExample.loadFromMetadata mdBad).2.vm_manager.address_space_type =
      mdBad.address_space_type) ∧
    ((procExample.loadFromMetadata mdBad).2.vm_manager.mappings = []) :=
  C10_load_from_metadata_not_atomic procExample mdBad (by decide)

theorem mapMemoryBlock_of_free {vm : VMManager} (b : List Nat) {t : Nat} (o : Nat)
    {s : Nat} (st : MemoryState)
    (hfree : vm.mappings.any (fun m => m.intersects t s) = false) :
    vm.mapMemoryBlock t b o s st =
      some { vm with mappings :=
        vm.mappings ++ [⟨t, s, st, (b.drop o).take s⟩] } := by
  unfold VMManager.mapMemoryBlock
  rw [if_neg (by simp [hfree])]

theorem mapMemoryBlock_of_hit {vm : VMManager} (b : List Nat) {t : Nat} (o : Nat)
    {s : Nat} (st : MemoryState)
    (hhit : vm.mappings.any (fun m => m.intersects t s) = true) :
    vm.mapMemoryBlock t b o s st = none := by
  unfold VMManager.mapMemoryBlock
  rw [if_pos hhit]

theorem mapMemoryBlock_getD_base (vm : VMManager) (t : Nat) (b : List Nat)
    (o s : Nat) (st : MemoryState) :
    ((vm.mapMemoryBlock t b o s st).getD vm).tls_io_region_base =
      vm.tls_io_region_base := by
  unfold VMManager.mapMemoryBlock
  by_cases hin : vm.mappings.any (fun m => m.intersects t s) = true
  · rw [if_pos hin]
    rfl
  · rw [if_neg hin]
    rfl

/-- `Run` when the stack mapping is rejected: `.Unwrap()` is fatal. -/
theorem run_fail (p : Process) (pr ss tid : Nat)
    (hhit : p.vm_manager.mappings.any (fun m =>
      m.intersects (wsub p.vm_manager.tls_io_region_end (alignUp ss PAGE_SIZE))
        (alignUp ss PAGE_SIZE)) = true) :
    p.run pr ss tid = HostResult.assertionFailure := by
  simp only [Process.run]
  rw [mapMemoryBlock_of_hit _ _ _ hhit]

/-- `Run` unfolded into its sequential effects when the stack mapping is
accepted. -/
theorem run_ok (p : Process) (pr ss tid : Nat)
    (hfree : p.vm_manager.mappings.any (fun m =>
      m.intersects (wsub p.vm_manager.tls_io_region_end (alignUp ss PAGE_SIZE))
        (alignUp ss PAGE_SIZE)) = false) :
    p.run pr ss tid =
      (let sz := alignUp ss PAGE_SIZE
       let vm1 : VMManager := { p.vm_manager with mappings := p.vm_manager.mappings ++
         [⟨wsub p.vm_manager.tls_io_region_end sz, sz, MemoryState.Stack,
           ((List.replicate sz 0).drop 0).take sz⟩] }
       let p1 : Process := { p with main_thread_stack_size := sz, vm_manager := vm1 }
       let p2 := (p1.changeStatus ProcessStatus.Running).1
       let thread0 := Thread.create tid p2.vm_manager.code_region_base pr
         p2.ideal_core p2.vm_manager.tls_io_region_end p2.process_id
       HostResult.ok ({ p2 with next_handle := p2.next_handle + 1 },
        Thread.resumeFromWait { thread0 with reg1 := p2.next_handle })) := by
  simp only [Process.run]
  rw [mapMemoryBlock_of_free _ _ _ hfree]
  rfl

/-- Whenever `Run` returns normally, the process it returns is Running. -/
theorem run_ok_inv {p : Process} {pr ss tid : Nat} {q : Process} {t : Thread}
    (h : p.run pr ss tid = HostResult.ok (q, t)) :
    q.status = ProcessStatus.Running := by
  by_cases hhit : p.vm_manager.mappings.any (fun m =>
      m.intersects (wsub p.vm_manager.tls_io_region_end (alignUp ss PAGE_SIZE))
        (alignUp ss PAGE_SIZE)) = true
  · rw [run_fail p pr ss tid hhit] at h
    exact absurd h (by simp)
  · have hfree : p.vm_manager.mappings.any (fun m =>
        m.intersects (wsub p.vm_manager.tls_io_region_end (alignUp ss PAGE_SIZE))
          (alignUp ss PAGE_SIZE)) = false := by simpa using hhit
    rw [run_ok p pr ss tid hfree] at h
    simp only [HostResult.ok.injEq, Prod.mk.injEq] at h
    rw [← h.1]
    exact changeStatus_fst_status _ _

/-- C5 counterexample: the operation sequence create; PrepareForTermination;
Run drives the status to Exited and then back to Running — a reversal of
the claimed total order.  The Run succeeds: no stack was mapped before, so
the stack range below the TLS/IO region end is free and the mapping is
accepted. -/
theorem C5_status_reversal_counterexample :
    procExitedNoRun.status = ProcessStatus.Exited ∧
    (procExitedNoRun.run 1 0x1000 8).isOk = true ∧
    (((procExitedNoRun.run 1 0x1000 8).getD (procExitedNoRun, threadW1)).1.status =
      ProcessStatus.Running) ∧
    statusOrd ProcessStatus.Running < statusOrd ProcessStatus.Exited :=
  ⟨by decide, by decide, by decide, by decide⟩

/-- C5 amended: Run and PrepareForTermination do not themselves guard the
order: under the intended protocol — Run on a Created process (its stack
mapping accepted), then PrepareForTermination — the status moves strictly
forward through Created, Running, Exiting, Exited with no status repeated
or skipped; but an out-of-protocol Run on an Exited process whose stack
range is still free (see the counterexample) moves the status back to
Running. -/
theorem C5_status_monotonic_protocol (p : Process) (pr ss tid : Nat)
    (glist : List Thread) (cur : Option Nat) (q : Process) (t : Thread)
    (h : p.status = ProcessStatus.Created)
    (hrun : p.run pr ss tid = HostResult.ok (q, t)) :
    (q.status = ProcessStatus.Running) ∧
    ((q.changeStatus ProcessStatus.Exiting).1.status = ProcessStatus.Exiting) ∧
    (((q.changeStatus ProcessStatus.Exiting).1.changeStatus
      ProcessStatus.Exited).1.status = ProcessStatus.Exited) ∧
    (statusOrd p.status < statusOrd ProcessStatus.Running) ∧
    (statusOrd ProcessStatus.Running < statusOrd ProcessStatus.Exiting) ∧
    (statusOrd ProcessStatus.Exiting < statusOrd ProcessStatus.Exited) ∧
    (∀ r, q.prepareForTermination glist cur = HostResult.ok r →
      r.1 = ((q.changeStatus ProcessStatus.Exiting).1.changeStatus
        ProcessStatus.Exited).1 ∧ r.1.status = ProcessStatus.Exited) := by
  refine ⟨run_ok_inv hrun, changeStatus_fst_status _ _,
    changeStatus_fst_status _ _, by rw [h]; decide, by decide, by decide, ?_⟩
  intro r hr
  unfold Process.prepareForTermination at hr
  cases hres : stopProcessThreads q.process_id cur glist with
  | ok ts =>
    rw [hres] at hr
    injection hr with h2
    rw [← h2]
    exact ⟨rfl, changeStatus_fst_status _ _⟩
  | assertionFailure =>
    rw [hres] at hr
    exact absurd hr (by simp)
  | outOfRangeAccess =>
    rw [hres] at hr
    exact absurd hr (by simp)

/-- C5 witness: the protocol on the example process. -/
theorem C5_status_monotonic_protocol_witness :
    ((((procExample.run 1 0x1000 7).getD (procExample, threadW1)).1.status =
      ProcessStatus.Running)) ∧
    (((((procExample.run 1 0x1000 7).getD (procExample, threadW1)).1.changeStatus
      ProcessStatus.Exiting).1.status = ProcessStatus.Exiting)) ∧
    (((((procExample.run 1 0x1000 7).getD (procExample, threadW1)).1.changeStatus
        ProcessStatus.Exiting).1.changeStatus
      ProcessStatus.Exited).1.status = ProcessStatus.Exited) ∧
    (statusOrd procExample.status < statusOrd ProcessStatus.Running) ∧
    (statusOrd ProcessStatus.Running < statusOrd ProcessStatus.Exiting) ∧
    (statusOrd ProcessStatus.Exiting < statusOrd ProcessStatus.Exited) ∧
    (∀ r, ((procExample.run 1 0x1000 7).getD
          (procExample, threadW1)).1.prepareForTermination [] none =
        HostResult.ok r →
      r.1 = ((((procExample.run 1 0x1000 7).getD
          (procExample, threadW1)).1.changeStatus ProcessStatus.Exiting).1.changeStatus
        ProcessStatus.Exited).1 ∧ r.1.status = ProcessStatus.Exited) :=
  C5_status_monotonic_protocol procExample 1 0x1000 7 [] none
    ((procExample.run 1 0x1000 7).getD (procExample, threadW1)).1
    ((procExample.run 1 0x1000 7).getD (procExample, threadW1)).2
    (by decide) rfl

/-- C3: `Run` rounds the stack size up to the page size (a multiple of the
page size, at least the request), maps exactly that many zero bytes as a
Stack region ending at the TLS/IO region end, transitions the status to
Running, and produces one main thread at the code-region base whose
register 1 holds its own non-zero handle and which is immediately
runnable.  The hypotheses are sanity bounds: the rounded size fits below
the region end, addresses fit in u64, the handle counter is live, and the
stack range is not already occupied (the spec rejects intersecting
mappings and `Run` unwraps the mapping result fatally). -/
theorem C3_run_stack_and_main_thread (p : Process) (pr ss tid : Nat)
    (hsz : alignUp ss PAGE_SIZE ≤ p.vm_manager.tls_io_region_end)
    (hend : p.vm_manager.tls_io_region_end < U64_MOD)
    (hh : p.next_handle ≠ 0)
    (hfree : ∀ m ∈ p.vm_manager.mappings,
      m.intersects (wsub p.vm_manager.tls_io_region_end (alignUp ss PAGE_SIZE))
        (alignUp ss PAGE_SIZE) = false) :
    (alignUp ss PAGE_SIZE % PAGE_SIZE = 0) ∧
    (ss ≤ alignUp ss PAGE_SIZE) ∧
    ∃ q t, p.run pr ss tid = HostResult.ok (q, t) ∧
      (q.main_thread_stack_size = alignUp ss PAGE_SIZE) ∧
      (q.vm_manager.mappings = p.vm_manager.mappings ++
        [{ base := p.vm_manager.tls_io_region_end - alignUp ss PAGE_SIZE,
           size := alignUp ss PAGE_SIZE, state := MemoryState.Stack,
           backing := List.replicate (alignUp ss PAGE_SIZE) 0 }]) ∧
      (q.status = ProcessStatus.Running) ∧
      (t.entry_point = p.vm_manager.code_region_base) ∧
      (t.reg1 = p.next_handle) ∧
      (t.reg1 ≠ 0) ∧
      (t.status = ThreadStatus.Ready) := by
  have hfree2 : p.vm_manager.mappings.any (fun m =>
      m.intersects (wsub p.vm_manager.tls_io_region_end (alignUp ss PAGE_SIZE))
        (alignUp ss PAGE_SIZE)) = false := by
    rw [List.any_eq_false]
    intro m hm
    simp [hfree m hm]
  refine ⟨alignUp_multiple ss PAGE_SIZE, alignUp_ge ss (by decide), ?_⟩
  rw [run_ok p pr ss tid hfree2]
  refine ⟨_, _, rfl, ?_, ?_, ?_, ?_, ?_, ?_, ?_⟩
  · simp [changeStatus_fst_stack_size]
  · simp [changeStatus_fst_vm, wsub_eq_sub hsz hend, List.take_replicate]
  · exact changeStatus_fst_status _ _
  · simp [changeStatus_fst_vm, Thread.resumeFromWait, Thread.create]
  · simp [changeStatus_fst_next_handle, Thread.resumeFromWait, Thread.create]
  · simp [changeStatus_fst_next_handle, Thread.resumeFromWait, Thread.create, hh]
  · simp [Thread.resumeFromWait]

/-- C3 witness: a run with requested stack size 1 on the example process. -/
theorem C3_run_stack_and_main_thread_witness :
    (alignUp 1 PAGE_SIZE % PAGE_SIZE = 0) ∧
    ((1 : Nat) ≤ alignUp 1 PAGE_SIZE) ∧
    ∃ q t, procExample.run 5 1 7 = HostResult.ok (q, t) ∧
      (q.main_thread_stack_size = alignUp 1 PAGE_SIZE) ∧
      (q.vm_manager.mappings = procExample.vm_manager.mappings ++
        [{ base := procExample.vm_manager.tls_io_region_end - alignUp 1 PAGE_SIZE,
           size := alignUp 1 PAGE_SIZE, state := MemoryState.Stack,
           backing := List.replicate (alignUp 1 PAGE_SIZE) 0 }]) ∧
      (q.status = ProcessStatus.Running) ∧
      (t.entry_point = procExample.vm_manager.code_region_base) ∧
      (t.reg1 = procExample.next_handle) ∧
      (t.reg1 ≠ 0) ∧
      (t.status = ThreadStatus.Ready) :=
  C3_run_stack_and_main_thread procExample 5 1 7 (by decide) (by decide) (by decide)
    (by decide)

/-- C6: `PrepareForTermination` first moves the status to Exiting, then for
every thread of the global list owned by this process other than the
current core's running thread it demands wait-synch status — a fatal
assertion, not a recoverable error, when violated — and stops it, leaving
threads of other processes untouched, and finally moves the status to
Exited. -/
theorem C6_prepare_termination_sweep (p : Process) (glist : List Thread)
    (cur : Option Nat) :
    ((∃ t ∈ glist, t.owner = p.process_id ∧ cur ≠ some t.tid ∧
        t.status ≠ ThreadStatus.WaitSynch) →
      p.prepareForTermination glist cur = HostResult.assertionFailure) ∧
    ((∀ t ∈ glist, t.owner = p.process_id → cur ≠ some t.tid →
        t.status = ThreadStatus.WaitSynch) →
      p.prepareForTermination glist cur = HostResult.ok
        ((((p.changeStatus ProcessStatus.Exiting).1.changeStatus
            ProcessStatus.Exited).1),
          glist.map (fun t =>
            if t.owner = p.process_id ∧ cur ≠ some t.tid then t.stop else t))) ∧
    (∀ r, p.prepareForTermination glist cur = HostResult.ok r →
      r.1.status = ProcessStatus.Exited) := by
  refine ⟨?_, ?_, ?_⟩
  · intro hex
    unfold Process.prepareForTermination
    rw [stopProcessThreads_fail _ _ _ hex]
  · intro hall
    unfold Process.prepareForTermination
    rw [stopProcessThreads_ok _ _ _ hall]
  · intro r hr
    unfold Process.prepareForTermination at hr
    cases hres : stopProcessThreads p.process_id cur glist with
    | ok ts =>
      rw [hres] at hr
      injection hr with h2
      rw [← h2]
      exact changeStatus_fst_status _ _
    | assertionFailure =>
      rw [hres] at hr
      exact absurd hr (by simp)
    | outOfRangeAccess =>
      rw [hres] at hr
      exact absurd hr (by simp)

/-- Unfolding of the allocation branch of `MarkNextAvailableTLSSlotAsUsed`. -/
theorem mark_unfold_alloc {p : Process}
    (hfind : findFreeThreadLocalSlot p.tls_slots = (0, 0, true)) :
    p.markNextAvailableTLSSlotAsUsed =
      (let vm1 := (p.vm_manager.mapMemoryBlock
         (p.vm_manager.tls_io_region_base + p.tls_slots.length * PAGE_SIZE)
         (List.replicate PAGE_SIZE 0) 0 PAGE_SIZE MemoryState.ThreadLocal).getD
           p.vm_manager
       ({ p with tls_slots := p.tls_slots ++ [setBit 0 0], vm_manager := vm1 },
        p.vm_manager.tls_io_region_base + p.tls_slots.length * PAGE_SIZE +
          0 * TLS_ENTRY_SIZE)) := by
  unfold Process.markNextAvailableTLSSlotAsUsed setSlotBit
  rw [hfind]
  simp [getD_append_len, set_append_len]

/-- Unfolding of the first-fit branch of `MarkNextAvailableTLSSlotAsUsed`. -/
theorem mark_unfold_found {p : Process} {pg sl : Nat}
    (hfind : findFreeThreadLocalSlot p.tls_slots = (pg, sl, false)) :
    p.markNextAvailableTLSSlotAsUsed =
      ({ p with tls_slots := p.tls_slots.set pg (setBit (p.tls_slots.getD pg 0) sl) },
       p.vm_manager.tls_io_region_base + pg * PAGE_SIZE + sl * TLS_ENTRY_SIZE) := by
  unfold Process.markNextAvailableTLSSlotAsUsed setSlotBit
  rw [hfind]
  rfl

/-- C1: `MarkNextAvailableTLSSlotAsUsed` returns the first free slot of the
first non-full page (pages and slot bits scanned in index order); when all
pages are full it appends one all-clear page, maps a zero-filled page-sized
block at TLS base + new page index × page size with ThreadLocal state and
uses slot 0 of the new page.  The returned address is
base + page × page size + slot × slot size, and that slot's bit is set in
the resulting state. -/
theorem C1_mark_tls_first_fit (p : Process) :
    ∃ page slot,
      ((p.markNextAvailableTLSSlotAsUsed).2 =
        p.vm_manager.tls_io_region_base + page * PAGE_SIZE + slot * TLS_ENTRY_SIZE) ∧
      (slot < TLS_SLOTS_PER_PAGE) ∧
      (((p.markNextAvailableTLSSlotAsUsed).1.tls_slots.getD page 0).testBit slot = true) ∧
      ((p.markNextAvailableTLSSlotAsUsed).1.vm_manager.tls_io_region_base =
        p.vm_manager.tls_io_region_base) ∧
      ((∀ q ∈ p.tls_slots, pageAllSet q = true) →
        page = p.tls_slots.length ∧ slot = 0 ∧
        (p.markNextAvailableTLSSlotAsUsed).1.tls_slots = p.tls_slots ++ [setBit 0 0] ∧
        (p.markNextAvailableTLSSlotAsUsed).1.vm_manager.mappings =
          (if p.vm_manager.mappings.any (fun m =>
              m.intersects (p.vm_manager.tls_io_region_base + p.tls_slots.length * PAGE_SIZE)
                PAGE_SIZE) = true
           then p.vm_manager.mappings
           else p.vm_manager.mappings ++
             [{ base := p.vm_manager.tls_io_region_base + p.tls_slots.length * PAGE_SIZE,
                size := PAGE_SIZE, state := MemoryState.ThreadLocal,
                backing := List.replicate PAGE_SIZE 0 }])) ∧
      ((¬ ∀ q ∈ p.tls_slots, pageAllSet q = true) →
        page < p.tls_slots.length ∧
        pageAllSet (p.tls_slots.getD page 0) = false ∧
        (∀ k < page, pageAllSet (p.tls_slots.getD k 0) = true) ∧
        ((p.tls_slots.getD page 0).testBit slot = false) ∧
        (∀ u < slot, (p.tls_slots.getD page 0).testBit u = true) ∧
        (p.markNextAvailableTLSSlotAsUsed).1.tls_slots =
          p.tls_slots.set page (setBit (p.tls_slots.getD page 0) slot) ∧
        (p.markNextAvailableTLSSlotAsUsed).1.vm_manager = p.vm_manager) := by
  by_cases hfull : ∀ q ∈ p.tls_slots, pageAllSet q = true
  · have hfind : findFreeThreadLocalSlot p.tls_slots = (0, 0, true) :=
      findFreeAux_all_full 0 hfull
    rw [mark_unfold_alloc hfind]
    refine ⟨p.tls_slots.length, 0, rfl, by decide, ?_, ?_, ?_, ?_⟩
    · simp only [getD_append_len]
      exact testBit_setBit_self 0 0
    · exact mapMemoryBlock_getD_base _ _ _ _ _ _
    · intro _
      refine ⟨rfl, rfl, rfl, ?_⟩
      by_cases hin : p.vm_manager.mappings.any (fun m =>
          m.intersects (p.vm_manager.tls_io_region_base + p.tls_slots.length * PAGE_SIZE)
            PAGE_SIZE) = true
      · rw [if_pos hin, mapMemoryBlock_of_hit _ _ _ hin]
        rfl
      · rw [if_neg hin, mapMemoryBlock_of_free _ _ _ (by simpa using hin)]
        simp [List.take_replicate]
    · intro hn
      exact absurd hfull hn
  · obtain ⟨j, s, heq, hj, hfull2, hk, hs, hbit, hu⟩ := findFreeAux_found 0 hfull
    have hfind : findFreeThreadLocalSlot p.tls_slots = (j, s, false) := by
      rw [Nat.zero_add] at heq
      exact heq
    rw [mark_unfold_found hfind]
    refine ⟨j, s, rfl, hs, ?_, rfl, ?_, ?_⟩
    · simp only [getD_set_self _ _ hj]
      exact testBit_setBit_self _ _
    · intro hf
      exact absurd hf hfull
    · intro _
      exact ⟨hj, hfull2, hk, hbit, hu, rfl, rfl⟩

/-- C8 counterexample: in the reachable state with page-0 bitmap 0b101
(slots 0 and 2 used, slot 1 free), freeing the allocated slot-2 address and
immediately reallocating returns the slot-1 address, not the freed one:
first-fit returns the overall first free slot, not the last freed slot. -/
theorem C8_free_realloc_counterexample :
    ((procTls101.tls_slots.getD 0 0).testBit 2 = true) ∧
    ((((procTls101.freeTLSSlot
          (0x1000000 + 2 * TLS_ENTRY_SIZE)).getD procTls101).markNextAvailableTLSSlotAsUsed).2 =
      0x1000000 + 1 * TLS_ENTRY_SIZE) ∧
    ((0x1000000 + 1 * TLS_ENTRY_SIZE : Nat) ≠ 0x1000000 + 2 * TLS_ENTRY_SIZE) :=
  ⟨by decide, by decide, by decide⟩

/-- C8 amended: for every slot address inside an allocated page, freeing
only clears that slot's bit — the page count, every other bit and the
address-space mappings are untouched, so pages are never removed or
unmapped — and immediately reallocating returns the freed address exactly
when every slot before it (page-then-slot order) is in use after the
free; otherwise first-fit reallocation returns an earlier free slot. -/
theorem C8_free_then_first_fit (p : Process) (pg sl : Nat)
    (hsl : sl < TLS_SLOTS_PER_PAGE)
    (hpg : pg < p.tls_slots.length)
    (haddr : p.vm_manager.tls_io_region_base + pg * PAGE_SIZE + sl * TLS_ENTRY_SIZE <
      U64_MOD) :
    (p.freeTLSSlot
        (p.vm_manager.tls_io_region_base + pg * PAGE_SIZE + sl * TLS_ENTRY_SIZE) =
      HostResult.ok (freedTls p pg sl)) ∧
    ((freedTls p pg sl).tls_slots.length = p.tls_slots.length) ∧
    ((freedTls p pg sl).vm_manager = p.vm_manager) ∧
    (((freedTls p pg sl).tls_slots.getD pg 0).testBit sl = false) ∧
    (∀ q u, q ≠ pg ∨ u ≠ sl →
      ((freedTls p pg sl).tls_slots.getD q 0).testBit u =
        (p.tls_slots.getD q 0).testBit u) ∧
    (((freedTls p pg sl).markNextAvailableTLSSlotAsUsed).2 =
        p.vm_manager.tls_io_region_base + pg * PAGE_SIZE + sl * TLS_ENTRY_SIZE ↔
      ((∀ k < pg, pageAllSet ((freedTls p pg sl).tls_slots.getD k 0) = true) ∧
       (∀ u < sl, ((freedTls p pg sl).tls_slots.getD pg 0).testBit u = true))) := by
  have hS : (0 : Nat) < TLS_ENTRY_SIZE := by decide
  have hP : (0 : Nat) < PAGE_SIZE := by decide
  have hr : sl * TLS_ENTRY_SIZE < PAGE_SIZE := by
    have h8 : TLS_SLOTS_PER_PAGE = 8 := rfl
    have hE : TLS_ENTRY_SIZE = 0x200 := rfl
    have hPv : PAGE_SIZE = 0x1000 := rfl
    rw [h8] at hsl
    rw [hE, hPv]
    omega
  have hbase_le : p.vm_manager.tls_io_region_base ≤
      p.vm_manager.tls_io_region_base + pg * PAGE_SIZE + sl * TLS_ENTRY_SIZE := by omega
  have h1 : wsub (p.vm_manager.tls_io_region_base + pg * PAGE_SIZE + sl * TLS_ENTRY_SIZE)
      p.vm_manager.tls_io_region_base = pg * PAGE_SIZE + sl * TLS_ENTRY_SIZE := by
    rw [wsub_eq_sub hbase_le haddr]
    omega
  have hdiv : (pg * PAGE_SIZE + sl * TLS_ENTRY_SIZE) / PAGE_SIZE = pg := by
    rw [Nat.mul_comm pg PAGE_SIZE, Nat.mul_add_div hP, Nat.div_eq_of_lt hr]
    omega
  have hmod : (pg * PAGE_SIZE + sl * TLS_ENTRY_SIZE) % PAGE_SIZE = sl * TLS_ENTRY_SIZE := by
    rw [Nat.mul_comm pg PAGE_SIZE, Nat.mul_add_mod, Nat.mod_eq_of_lt hr]
  have hslot : sl * TLS_ENTRY_SIZE / TLS_ENTRY_SIZE = sl := Nat.mul_div_cancel sl hS
  have hfree : p.freeTLSSlot
      (p.vm_manager.tls_io_region_base + pg * PAGE_SIZE + sl * TLS_ENTRY_SIZE) =
      HostResult.ok (freedTls p pg sl) := by
    unfold Process.freeTLSSlot freedTls
    simp only [h1, hdiv, hmod, hslot]
    rw [if_pos hpg]
  have hpg2 : pg < (p.tls_slots.set pg (resetBit (p.tls_slots.getD pg 0) sl)).length := by
    rw [List.length_set]
    exact hpg
  have hbitclear :
      ((p.tls_slots.set pg (resetBit (p.tls_slots.getD pg 0) sl)).getD pg 0).testBit sl =
        false := by
    rw [getD_set_self _ _ hpg]
    exact testBit_resetBit_self _ _
  unfold freedTls
  refine ⟨hfree, List.length_set _ _ _, rfl, hbitclear, ?_, ?_, ?_⟩
  · intro q u hqu
    by_cases hq : q = pg
    · subst hq
      have hune : u ≠ sl := by
        rcases hqu with hq2 | hu2
        · exact absurd rfl hq2
        · exact hu2
      rw [getD_set_self _ _ hpg]
      exact testBit_resetBit_ne _ (fun he => hune he.symm)
    · rw [getD_set_ne _ _ (fun he => hq he.symm)]
  · intro hmark
    have hnotfull : ¬ ∀ q ∈ p.tls_slots.set pg (resetBit (p.tls_slots.getD pg 0) sl),
        pageAllSet q = true := by
      intro hall
      have hmem : (p.tls_slots.set pg (resetBit (p.tls_slots.getD pg 0) sl)).getD pg 0 ∈
          p.tls_slots.set pg (resetBit (p.tls_slots.getD pg 0) sl) := by
        rw [List.getD_eq_getElem _ _ hpg2]
        exact List.getElem_mem _
      have htrue := hall _ hmem
      have hfalse := pageAllSet_false_of_clear hsl hbitclear
      rw [htrue] at hfalse
      exact absurd hfalse (by simp)
    obtain ⟨j, s2, heq, hj, hfull2, hkj, hs8, hbitjs, huj⟩ := findFreeAux_found 0 hnotfull
    have hfind : findFreeThreadLocalSlot
        (p.tls_slots.set pg (resetBit (p.tls_slots.getD pg 0) sl)) = (j, s2, false) := by
      rw [Nat.zero_add] at heq
      exact heq
    rw [mark_unfold_found hfind] at hmark
    have hmark2 : p.vm_manager.tls_io_region_base + j * PAGE_SIZE + s2 * TLS_ENTRY_SIZE =
        p.vm_manager.tls_io_region_base + pg * PAGE_SIZE + sl * TLS_ENTRY_SIZE := hmark
    have hsl8 : sl < 8 := by
      have h8 : TLS_SLOTS_PER_PAGE = 8 := rfl
      rw [h8] at hsl
      exact hsl
    have hs28 : s2 < 8 := by
      have h8 : TLS_SLOTS_PER_PAGE = 8 := rfl
      rw [h8] at hs8
      exact hs8
    have hPv : PAGE_SIZE = 0x1000 := rfl
    have hSv : TLS_ENTRY_SIZE = 0x200 := rfl
    rw [hPv, hSv] at hmark2
    have hjpg : j = pg ∧ s2 = sl := by omega
    obtain ⟨rfl, rfl⟩ := hjpg
    exact ⟨hkj, huj⟩
  · rintro ⟨hk2, hu2⟩
    have hfind : findFreeThreadLocalSlot
        (p.tls_slots.set pg (resetBit (p.tls_slots.getD pg 0) sl)) = (pg, sl, false) := by
      have := findFreeAux_exact 0 hpg2 hk2
        (pageAllSet_false_of_clear hsl hbitclear) hsl hbitclear hu2
      rw [Nat.zero_add] at this
      exact this
    rw [mark_unfold_found hfind]

/-- C8 witness: page 0 holds slots 0 and 1; freeing slot 1 leaves one page
with only bit 1 changed, and reallocating returns slot 1 again since slot 0
is still in use. -/
theorem C8_free_then_first_fit_witness :
    (procTls011.freeTLSSlot
        (procTls011.vm_manager.tls_io_region_base + 0 * PAGE_SIZE + 1 * TLS_ENTRY_SIZE) =
      HostResult.ok (freedTls procTls011 0 1)) ∧
    ((freedTls procTls011 0 1).tls_slots.length = procTls011.tls_slots.length) ∧
    ((freedTls procTls011 0 1).vm_manager = procTls011.vm_manager) ∧
    (((freedTls procTls011 0 1).tls_slots.getD 0 0).testBit 1 = false) ∧
    (∀ q u, q ≠ 0 ∨ u ≠ 1 →
      ((freedTls procTls011 0 1).tls_slots.getD q 0).testBit u =
        (procTls011.tls_slots.getD q 0).testBit u) ∧
    (((freedTls procTls011 0 1).markNextAvailableTLSSlotAsUsed).2 =
        procTls011.vm_manager.tls_io_region_base + 0 * PAGE_SIZE + 1 * TLS_ENTRY_SIZE ↔
      ((∀ k < 0, pageAllSet ((freedTls procTls011 0 1).tls_slots.getD k 0) = true) ∧
       (∀ u < 1, ((freedTls procTls011 0 1).tls_slots.getD 0 0).testBit u = true))) :=
  C8_free_then_first_fit procTls011 0 1 (by decide) (by decide) (by decide)

end YuzuKernel
